import Mathlib

/-!
Verification development for the tool-call orchestration agent (`main.py`,
`functions/get_files_info.py`).

The Python code is shallowly embedded: pure path arithmetic (`os.path.join`,
`os.path.abspath`, `os.path.normpath`, `os.path.dirname`, `os.path.relpath`
on POSIX) becomes Lean functions on `String`; the OS filesystem becomes an
explicit `FS` record threaded through the tool implementations; subprocess
execution becomes an oracle inside a `World` record plus an explicit event
trace, so that "no subprocess was spawned" is a statement about the trace.
Python exceptions become `Except`; the `try/except` blocks of the source are
the corresponding `match`es.

String primitives (`startswith`, `split`, `join`) are implemented over
character lists so that concrete instances evaluate inside the kernel.
-/

deriving instance DecidableEq for Except

/-- `str.startswith` (needed because the builtin does not kernel-reduce). -/
def strStartsWith (s pre : String) : Bool := pre.data.isPrefixOf s.data

/-- `str.endswith`. -/
def strEndsWith (s suf : String) : Bool := suf.data.isSuffixOf s.data

/-- `str.split(sep)` for a one-character separator, keeping empty pieces,
exactly like Python. -/
def splitChars (sep : Char) : List Char → List Char → List String
  | acc, [] => [String.mk acc.reverse]
  | acc, c :: rest =>
    if c = sep then String.mk acc.reverse :: splitChars sep [] rest
    else splitChars sep (c :: acc) rest

/-- `sep.join(parts)` for a one-character separator. -/
def joinSep (sep : String) : List String → String
  | [] => ""
  | [s] => s
  | s :: rest => s ++ sep ++ joinSep sep rest

/-- `os.sep` on POSIX. -/
def os_sep : String := "/"

/-- `posixpath.join a b` for two components (the only arity the source uses):
if `b` is absolute it replaces `a`; otherwise it is appended with a separator
unless `a` is empty or already ends with one. -/
def joinPath (a b : String) : String :=
  if strStartsWith b "/" then b
  else if a = "" ∨ strEndsWith a "/" then a ++ b
  else a ++ "/" ++ b

/-- The component loop of `posixpath.normpath`: `acc` is the reversed list of
kept components; `initialSlashes` tells whether the path is absolute (a `..`
at the root of an absolute path is dropped). -/
def normComps (initialSlashes : Bool) (acc : List String) : List String → List String
  | [] => acc.reverse
  | c :: rest =>
    if c = "" ∨ c = "." then normComps initialSlashes acc rest
    else if c ≠ ".." ∨ (initialSlashes = false ∧ acc = []) ∨ acc.head? = some ".." then
      normComps initialSlashes (c :: acc) rest
    else
      match acc with
      | [] => normComps initialSlashes [] rest
      | _ :: acc2 => normComps initialSlashes acc2 rest

/-- `posixpath.normpath`, including the POSIX special case that exactly two
leading slashes are preserved. -/
def normpath (p : String) : String :=
  if p = "" then "." else
  let slashes : Nat :=
    if strStartsWith p "//" ∧ ¬ strStartsWith p "///" then 2
    else if strStartsWith p "/" then 1 else 0
  let comps := splitChars '/' [] p.data
  let kept := normComps (slashes > 0) [] comps
  let res := String.mk (List.replicate slashes '/') ++ joinSep "/" kept
  if res = "" then "." else res

/-- `posixpath.abspath` relative to an explicit current working directory
(`os.getcwd()` is a process-global; it is a parameter here). -/
def abspath (cwd p : String) : String :=
  if strStartsWith p "/" then normpath p else normpath (joinPath cwd p)

/-- Index of the last `/` in a character list, if any. -/
def lastSlashPos (cs : List Char) : Option Nat :=
  ((List.range cs.length).filter (fun i => cs.get? i = some '/')).getLast?

/-- Drop trailing slashes (`str.rstrip(sep)` as used by `posixpath.dirname`). -/
def rstripSlashes (cs : List Char) : List Char :=
  (cs.reverse.dropWhile (· = '/')).reverse

/-- `posixpath.dirname`: everything up to the last separator, with trailing
separators stripped unless the head is all separators. -/
def dirnameStr (p : String) : String :=
  match lastSlashPos p.data with
  | none => ""
  | some i =>
    let head := p.data.take (i + 1)
    if head.all (· = '/') then String.mk head
    else String.mk (rstripSlashes head)

/-- `_safe_resolve(path, base)` from `main.py`: joins and normalizes, then
accepts only targets equal to the absolute base or extending it past a
separator. The `ValueError` raised by the source is the `Except.error`; the
function is pure and consults no filesystem. -/
def _safe_resolve (cwd : String) (path base : String) : Except String String :=
  let base_abs := abspath cwd base
  let target := abspath cwd (joinPath base_abs path)
  if target = base_abs ∨ strStartsWith target (base_abs ++ os_sep) then Except.ok target
  else Except.error "Path escapes working directory"

/-- The confinement condition in the words of the specification: the
normalized result equals the root, or has the root followed by the path
separator as a prefix. -/
def staysInsideRoot (root target : String) : Bool :=
  target == root || strStartsWith target (root ++ os_sep)

/-! ## Filesystem and world model -/

/-- A snapshot of the OS filesystem: decoded text of regular files, the set of
directories, and the (unsorted) entry names `os.listdir`/`os.scandir` would
report for a directory. Side effects of spawned subprocesses on the
filesystem are not modelled; no claim depends on them. -/
structure FS where
  files : String → Option String
  dirs : String → Bool
  entries : String → List String

def fsIsFile (fs : FS) (p : String) : Bool := (fs.files p).isSome

def fsExists (fs : FS) (p : String) : Bool := fsIsFile fs p || fs.dirs p

/-- Outcome of `subprocess.run`: normal completion, `TimeoutExpired`, or a
launch failure (the generic `except Exception` branch). -/
inductive ProcOutcome where
  | finished (returncode : Int) (stdout : String) (stderr : String)
  | timedOut
  | failed (msg : String)

/-- Process-global context: current working directory (`os.getcwd()`),
`sys.executable`, the filesystem and the subprocess oracle
(command, `cwd=` argument ↦ outcome). -/
structure World where
  cwd : String
  executable : String
  fs : FS
  exec : List String → String → ProcOutcome

/-- The payload handed to `types.Part.from_function_response`: `main.py`
builds either `{"result": string}` or, for an unknown tool,
`{"error": string}`. -/
inductive FnResponse where
  | result (s : String)
  | error (s : String)
deriving DecidableEq

namespace types

/-- A `types.Part`: optional text plus an optional function-response
payload. -/
structure Part where
  text : Option String
  function_response : Option FnResponse
deriving DecidableEq

/-- A `types.Content`: a role string and a list of parts. -/
structure Content where
  role : String
  parts : List Part
deriving DecidableEq

end types

/-- Observable side effects of the executor, recorded as a trace: the
progress notice printed on entry to `call_function`, a subprocess spawn
attempt, and the appending of a turn to the conversation. -/
inductive Event where
  | invoke (name : String)
  | spawn (cmd : List String) (cwdArg : String)
  | append (turn : types.Content)
deriving DecidableEq

/-- Approximation of Python `str({"result": ...})` used only for the logging
`text` of a function-response part (the loop never reads it); quotes inside
the payload are not re-escaped. -/
def pyReprFnResponse : FnResponse → String
  | .result s => "\x7b\x27result\x27: \x27" ++ s ++ "\x27\x7d"
  | .error s => "\x7b\x27error\x27: \x27" ++ s ++ "\x27\x7d"

/-- `types.Part.from_function_response` (stub path of `main.py`): text is the
printed dict, and the `function_response.response` payload is attached. -/
def partFromFnResponse (resp : FnResponse) : types.Part :=
  { text := some (pyReprFnResponse resp), function_response := some resp }

/-! ## Tool implementations (`main.py` helpers) -/

/-- Python `content or ""` for a string argument. -/
def py_str_or_empty (s : String) : String := if s = "" then "" else s

/-- Stable ascending insertion (model of Python `sorted` on strings). -/
def insertSorted (s : String) : List String → List String
  | [] => [s]
  | t :: rest => if s ≤ t then s :: t :: rest else t :: insertSorted s rest

def sortedStrings : List String → List String
  | [] => []
  | s :: rest => insertSorted s (sortedStrings rest)

/-- `_get_files_info(directory, working_directory)`: list the resolved
directory, one line per entry in sorted order. OS error text is abbreviated
to the exception kind. -/
def _get_files_info (w : World) (directory working_directory : String) : String :=
  match _safe_resolve w.cwd directory working_directory with
  | .error e => "Error: " ++ e
  | .ok target =>
    if ¬ fsExists w.fs target then "Error: directory not found: " ++ directory
    else if ¬ w.fs.dirs target then "Error listing directory: NotADirectoryError"
    else
      let lines := (sortedStrings (w.fs.entries target)).map (fun name =>
        let p := joinPath target name
        if fsIsFile w.fs p then
          name ++ " (file, " ++ toString ((w.fs.files p).getD "").utf8ByteSize ++ " bytes)"
        else if w.fs.dirs p then name ++ " (dir)"
        else name ++ " (other)")
      if lines = [] then "(empty)" else joinSep "\n" lines

/-- `_get_file_content(file_path, working_directory)`. -/
def _get_file_content (w : World) (file_path working_directory : String) : String :=
  match _safe_resolve w.cwd file_path working_directory with
  | .error e => "Error: " ++ e
  | .ok target =>
    if ¬ fsExists w.fs target ∨ ¬ fsIsFile w.fs target then
      "Error: file not found: " ++ file_path
    else (w.fs.files target).getD ""

/-- The ancestor chain a recursive `os.makedirs` walks: outermost missing
component first, ending with the directory itself; empty for `""` and `"/"`
(the root is assumed to exist). The fuel is the string length, which bounds
the dirname chain. -/
def ancestorList : Nat → String → List String
  | 0, _ => []
  | n + 1, p =>
    if p = "" ∨ p = "/" then [] else ancestorList n (dirnameStr p) ++ [p]

/-- One `os.mkdir` per chain element, tolerating existing directories
(`exist_ok=True`) and failing if a component exists as a regular file. -/
def mkdirChain (fs : FS) : List String → Except String FS
  | [] => .ok fs
  | d :: rest =>
    if fs.dirs d then mkdirChain fs rest
    else if fsIsFile fs d then .error "FileExistsError"
    else mkdirChain { fs with dirs := fun p => p == d || fs.dirs p } rest

/-- `os.makedirs(name, exist_ok=True)`. -/
def makedirs (fs : FS) (name : String) : Except String FS :=
  mkdirChain fs (ancestorList name.length name)

/-- `_write_file(file_path, content, working_directory)`: resolve, create
parent directories, then overwrite. `open(target, "w")` on an existing
directory raises, caught by the source as "Error writing file". -/
def _write_file (w : World) (file_path content working_directory : String) :
    String × World :=
  match _safe_resolve w.cwd file_path working_directory with
  | .error e => ("Error: " ++ e, w)
  | .ok target =>
    match makedirs w.fs (dirnameStr target) with
    | .error e => ("Error writing file: " ++ e, w)
    | .ok fs1 =>
      if fs1.dirs target then ("Error writing file: IsADirectoryError", w)
      else
        let fs2 : FS :=
          { fs1 with files := fun p =>
              if p == target then some (py_str_or_empty content) else fs1.files p }
        ("Wrote " ++ toString (py_str_or_empty content).length ++ " bytes to " ++ file_path,
          { w with fs := fs2 })

/-- `shlex.split` (POSIX rules): whitespace splitting with single/double
quotes and backslash escapes; `none` models the `ValueError` on an unclosed
quote or trailing escape. The fuel argument only serves termination and is
always sufficient at the call site. -/
def shlexSplitAux : Nat → List Char → Option Char → List Char → Bool →
    List String → Option (List String)
  | 0, _, _, _, _, _ => none
  | _ + 1, [], none, cur, started, acc =>
    some (if started then acc ++ [String.mk cur.reverse] else acc)
  | _ + 1, [], some _, _, _, _ => none
  | n + 1, c :: rest, some q, cur, _, acc =>
    if c = q then shlexSplitAux n rest none cur true acc
    else if q = '"' ∧ c = '\\' then
      match rest with
      | [] => none
      | e :: rest2 =>
        if e = '"' ∨ e = '\\' then shlexSplitAux n rest2 (some q) (e :: cur) true acc
        else shlexSplitAux n rest2 (some q) (e :: c :: cur) true acc
    else shlexSplitAux n rest (some q) (c :: cur) true acc
  | n + 1, c :: rest, none, cur, started, acc =>
    if c = ' ' ∨ c = '\t' ∨ c = '\n' ∨ c = '\r' then
      if started then shlexSplitAux n rest none [] false (acc ++ [String.mk cur.reverse])
      else shlexSplitAux n rest none [] false acc
    else if c = '\\' then
      match rest with
      | [] => none
      | e :: rest2 => shlexSplitAux n rest2 none (e :: cur) true acc
    else if c = '\x27' ∨ c = '"' then shlexSplitAux n rest (some c) cur true acc
    else shlexSplitAux n rest none (c :: cur) true acc

def shlexSplit (s : String) : Option (List String) :=
  shlexSplitAux (s.data.length + 1) s.data none [] false []

/-- `_run_python_file(file_path, args, working_directory)`: resolve, require
an existing regular file, build the command (falling back to a single
argument if tokenization fails), then ask the subprocess oracle. The spawn
attempt is recorded as an event; no event is recorded when the function
returns before reaching `subprocess.run`. -/
def _run_python_file (w : World) (file_path args working_directory : String) :
    String × List Event :=
  match _safe_resolve w.cwd file_path working_directory with
  | .error e => ("Error: " ++ e, [])
  | .ok target =>
    if ¬ fsExists w.fs target ∨ ¬ fsIsFile w.fs target then
      ("Error: file not found: " ++ file_path, [])
    else
      let base := [w.executable, target]
      let cmd :=
        if args = "" then base
        else match shlexSplit args with
          | some toks => base ++ toks
          | none => base ++ [args]
      match w.exec cmd working_directory with
      | .finished rc out err2 =>
        ("Exit " ++ toString rc ++ "\nSTDOUT:\n" ++ out ++ "\nSTDERR:\n" ++ err2,
          [Event.spawn cmd working_directory])
      | .timedOut => ("Error: execution timed out", [Event.spawn cmd working_directory])
      | .failed msg => ("Error running file: " ++ msg, [Event.spawn cmd working_directory])

/-! ## Advertised tool declarations -/

/-- A string-typed parameter schema (`types.Schema(type=STRING, ...)`). -/
structure ParamSchema where
  type : String
  description : String
deriving DecidableEq

/-- An object schema (`types.Schema(type=OBJECT, properties=...)`). -/
structure ObjSchema where
  type : String
  properties : List (String × ParamSchema)
deriving DecidableEq

/-- A `types.FunctionDeclaration`. -/
structure FunctionDeclaration where
  name : String
  description : String
  parameters : ObjSchema
deriving DecidableEq

/-- A `types.Tool`. -/
structure Tool where
  function_declarations : List FunctionDeclaration
deriving DecidableEq

/-- `schema_get_files_info` (identical in `functions/get_files_info.py` and
the fallback in `main.py`). -/
def schema_get_files_info : FunctionDeclaration :=
  { name := "get_files_info"
    description := "Lists files in the specified directory along with their sizes, constrained to the working directory."
    parameters :=
      { type := "object"
        properties := [("directory",
          { type := "string"
            description := "The directory to list files from, relative to the working directory. If not provided, lists files in the working directory itself." })] } }

def schema_get_file_content : FunctionDeclaration :=
  { name := "get_file_content"
    description := "Reads file contents relative to the working directory. Returns file text or an error if not accessible."
    parameters :=
      { type := "object"
        properties := [("file_path",
          { type := "string"
            description := "Path to the file, relative to the working directory." })] } }

def schema_run_python_file : FunctionDeclaration :=
  { name := "run_python_file"
    description := "Executes a Python file with optional command-line arguments. File path is relative to the working directory."
    parameters :=
      { type := "object"
        properties := [("file_path",
          { type := "string"
            description := "Path to the Python file to execute, relative to the working directory." }),
          ("args",
          { type := "string"
            description := "Optional command-line arguments as a single string." })] } }

def schema_write_file : FunctionDeclaration :=
  { name := "write_file"
    description := "Writes or overwrites a file at the given path with provided content. Path is relative to the working directory."
    parameters :=
      { type := "object"
        properties := [("file_path",
          { type := "string"
            description := "Path to the file to write, relative to the working directory." }),
          ("content",
          { type := "string"
            description := "Content to write into the file." })] } }

/-- `available_functions`: all four declarations are present (none is `None`,
so the `if d is not None` filter keeps them all). -/
def available_functions : Tool :=
  { function_declarations :=
      [schema_get_files_info, schema_get_file_content,
        schema_run_python_file, schema_write_file] }

/-! ## The tool executor (`call_function`) -/

/-- Python dict assignment `d[k] = v` on an insertion-ordered association
list: overwrite in place if the key is present, else append. -/
def setArg : List (String × String) → String → String → List (String × String)
  | [], k, v => [(k, v)]
  | (k0, v0) :: rest, k, v =>
    if k0 = k then (k0, v) :: rest else (k0, v0) :: setArg rest k v

/-- A function call requested by the model: `name` and untrusted `args`
(`function_call_part.name` / `.args`). -/
structure FunctionCall where
  name : String
  args : List (String × String)
deriving DecidableEq

/-- A registered tool seen through Python keyword binding:
given the world and the keyword dict it either raises `TypeError`
(`Except.error` with the message) or returns (result string, new world,
spawn events). -/
def ToolImpl : Type :=
  World → List (String × String) → Except String (String × World × List Event)

/-- `TypeError` message for an unexpected keyword argument. -/
def unexpectedKwMsg (f k : String) : String :=
  f ++ "() got an unexpected keyword argument \x27" ++ k ++ "\x27"

/-- `TypeError` message for one missing required positional argument. -/
def missingOneMsg (f a : String) : String :=
  f ++ "() missing 1 required positional argument: \x27" ++ a ++ "\x27"

/-- `TypeError` message for two missing required positional arguments. -/
def missingTwoMsg (f a b : String) : String :=
  f ++ "() missing 2 required positional arguments: \x27" ++ a ++ "\x27 and \x27" ++ b ++ "\x27"

/-- The keyword dict rejects keys outside the function signature. -/
def findUnexpected (accepted : List String) (m : List (String × String)) : Option String :=
  (m.find? (fun kv => ¬ accepted.contains kv.1)).map (·.1)

/-- Keyword binding for `_get_files_info(directory=".", working_directory="./calculator")`. -/
def bind_get_files_info : ToolImpl := fun w m =>
  match findUnexpected ["directory", "working_directory"] m with
  | some k => .error (unexpectedKwMsg "_get_files_info" k)
  | none =>
    .ok (_get_files_info w ((m.lookup "directory").getD ".")
          ((m.lookup "working_directory").getD "./calculator"), w, [])

/-- Keyword binding for `_get_file_content(file_path, working_directory="./calculator")`. -/
def bind_get_file_content : ToolImpl := fun w m =>
  match findUnexpected ["file_path", "working_directory"] m with
  | some k => .error (unexpectedKwMsg "_get_file_content" k)
  | none =>
    match m.lookup "file_path" with
    | none => .error (missingOneMsg "_get_file_content" "file_path")
    | some fp =>
      .ok (_get_file_content w fp ((m.lookup "working_directory").getD "./calculator"), w, [])

/-- Keyword binding for `_run_python_file(file_path, args="", working_directory="./calculator")`. -/
def bind_run_python_file : ToolImpl := fun w m =>
  match findUnexpected ["file_path", "args", "working_directory"] m with
  | some k => .error (unexpectedKwMsg "_run_python_file" k)
  | none =>
    match m.lookup "file_path" with
    | none => .error (missingOneMsg "_run_python_file" "file_path")
    | some fp =>
      let r := _run_python_file w fp ((m.lookup "args").getD "")
        ((m.lookup "working_directory").getD "./calculator")
      .ok (r.1, w, r.2)

/-- Keyword binding for `_write_file(file_path, content, working_directory="./calculator")`:
`content` has no default in the source, so omitting it is a `TypeError`. -/
def bind_write_file : ToolImpl := fun w m =>
  match findUnexpected ["file_path", "content", "working_directory"] m with
  | some k => .error (unexpectedKwMsg "_write_file" k)
  | none =>
    match m.lookup "file_path", m.lookup "content" with
    | some fp, some c =>
      let r := _write_file w fp c ((m.lookup "working_directory").getD "./calculator")
      .ok (r.1, r.2, [])
    | some _, none => .error (missingOneMsg "_write_file" "content")
    | none, some _ => .error (missingOneMsg "_write_file" "file_path")
    | none, none => .error (missingTwoMsg "_write_file" "file_path" "content")

/-- The dispatch dict of `call_function`. -/
def dispatch : List (String × ToolImpl) :=
  [("get_files_info", bind_get_files_info),
   ("get_file_content", bind_get_file_content),
   ("run_python_file", bind_run_python_file),
   ("write_file", bind_write_file)]

/-- `call_function(function_call_part)`: copy the args, force
`working_directory`, dispatch; an unknown name becomes an `{"error": ...}`
payload, a `TypeError`/exception during the call becomes
`{"result": "Error during execution: ..."}`. Returns the tool-role content,
the possibly-updated world, and the event trace. -/
def call_function (w : World) (fc : FunctionCall) :
    types.Content × World × List Event :=
  let function_args := setArg fc.args "working_directory" "./calculator"
  match dispatch.lookup fc.name with
  | none =>
    (types.Content.mk "tool"
        [partFromFnResponse (.error ("Unknown function: " ++ fc.name))],
      w, [Event.invoke fc.name])
  | some impl =>
    match impl w function_args with
    | .error e =>
      (types.Content.mk "tool"
          [partFromFnResponse (.result ("Error during execution: " ++ e))],
        w, [Event.invoke fc.name])
    | .ok (res, w2, evs) =>
      (types.Content.mk "tool" [partFromFnResponse (.result res)],
        w2, Event.invoke fc.name :: evs)

/-! ## The orchestration loop (`main`) -/

/-- A model response: `response.text`, `response.function_calls`,
`response.candidates` (the `content` of a candidate may be `None`, which the
loop skips when appending but still counts in the termination check). -/
structure Response where
  text : Option String
  function_calls : List FunctionCall
  candidates : List (Option types.Content)

/-- The model backend: `client.models.generate_content` as a function of the
transcript; `Except.error` is a raised transport exception. -/
def Backend : Type := List types.Content → Except String Response

/-- `function_call_result.parts[0].function_response.response`; `none` models
the `RuntimeError` the loop raises when the structure is missing. -/
def extractResp (c : types.Content) : Option FnResponse :=
  match c.parts with
  | [] => none
  | p :: _ => p.function_response

/-- The turn the loop appends for a tool result: the payload is re-wrapped
via `types.Part.from_function_response` into a content with role "user". -/
def mkToolResultTurn (resp : FnResponse) : types.Content :=
  types.Content.mk "user" [partFromFnResponse resp]

/-- The `for part in function_calls` body: invoke `call_function`, extract
the payload, append the rebuilt turn, then move to the next call. `none`
models the uncaught `RuntimeError` (crash). -/
def processCalls (w : World) (msgs : List types.Content) (tr : List Event) :
    List FunctionCall → Option (List types.Content × World × List Event)
  | [] => some (msgs, w, tr)
  | c :: rest =>
    let r := call_function w c
    match extractResp r.1 with
    | none => none
    | some fr =>
      let turn := mkToolResultTurn fr
      processCalls r.2.1 (msgs ++ [turn]) (tr ++ r.2.2 ++ [Event.append turn]) rest

/-- Python truthiness of `response.text`. -/
def truthyText : Option String → Bool
  | none => false
  | some s => !(s == "")

/-- The termination test of the loop
`final_text and not (function_calls or candidates)`. -/
def finalCheck (r : Response) : Bool :=
  truthyText r.text && r.function_calls.isEmpty && r.candidates.isEmpty

/-- The loop state: the transcript, the world, and the accumulated event
trace. -/
structure LoopSt where
  messages : List types.Content
  world : World
  trace : List Event

/-- Result of one pass of the `for i in range(max_iters)` body. -/
inductive StepRes where
  | cont (st : LoopSt)
  | finalText (t : String) (st : LoopSt)
  | transportError (e : String) (st : LoopSt)
  | crashed (st : LoopSt)

/-- One loop pass: request, append candidate contents, execute the tool
calls, then test the termination condition. -/
def loopStep (backend : Backend) (st : LoopSt) : StepRes :=
  match backend st.messages with
  | .error e => .transportError e st
  | .ok r =>
    let msgs1 := st.messages ++ r.candidates.filterMap id
    match processCalls st.world msgs1 st.trace r.function_calls with
    | none => .crashed { st with messages := msgs1 }
    | some (msgs2, w2, tr2) =>
      let st2 : LoopSt := ⟨msgs2, w2, tr2⟩
      if finalCheck r then .finalText (r.text.getD "") st2 else .cont st2

/-- How a whole invocation ends: final text printed, transport error
printed, uncaught `RuntimeError`, or the `for`-`else` exhaustion message
"No final textual response after max iterations.". -/
inductive RunOutcome where
  | finalText (t : String)
  | transportError (e : String)
  | crashed
  | exhausted
deriving DecidableEq

/-- The bounded loop; returns the outcome, the final state, and the number
of passes (model requests) actually made. -/
def runLoop (backend : Backend) : Nat → LoopSt → RunOutcome × LoopSt × Nat
  | 0, st => (.exhausted, st, 0)
  | n + 1, st =>
    match loopStep backend st with
    | .finalText t st2 => (.finalText t, st2, 1)
    | .transportError e st2 => (.transportError e, st2, 1)
    | .crashed st2 => (.crashed, st2, 1)
    | .cont st2 =>
      let r := runLoop backend n st2
      (r.1, r.2.1, r.2.2 + 1)

/-- `max_iters = 20` in `main`. -/
def max_iters : Nat := 20

/-- The loop of `main` from the initial single user turn. -/
def runAgent (backend : Backend) (w : World) (user_prompt : String) :
    RunOutcome × LoopSt × Nat :=
  runLoop backend max_iters
    ⟨[types.Content.mk "user" [types.Part.mk (some user_prompt) none]], w, []⟩

/-! ## Standalone `functions/get_files_info.py` -/

/-- Length of the longest common elementwise prefix
(`os.path.commonprefix` on the two segment lists). -/
def commonPrefixLen : List String → List String → Nat
  | a :: as2, b :: bs => if a = b then commonPrefixLen as2 bs + 1 else 0
  | _, _ => 0

/-- `posixpath.relpath(path, start)` (both made absolute against `cwd`). -/
def relpath (cwd : String) (path start : String) : String :=
  let pl := (splitChars '/' [] (abspath cwd path).data).filter (· ≠ "")
  let sl := (splitChars '/' [] (abspath cwd start).data).filter (· ≠ "")
  let i := commonPrefixLen sl pl
  let rel := List.replicate (sl.length - i) ".." ++ pl.drop i
  if rel = [] then "." else joinSep "/" rel

/-- Return value of the standalone `get_files_info`: `{"files": [...]}` with
(relative path, size) pairs, or `{"error": msg}`. -/
inductive GfiOutcome where
  | files (entries : List (String × Nat))
  | error (msg : String)
deriving DecidableEq

/-- The standalone `get_files_info(directory=".")`: base is
`os.path.abspath(os.getcwd())` (here `normpath cwd` with `cwd` absolute);
the confinement test is a plain string-prefix `target.startswith(base)`.
Only regular files are reported, in `os.scandir` order. -/
def get_files_info (cwd : String) (fs : FS) (directory : String) : GfiOutcome :=
  let base := normpath cwd
  let target := abspath cwd (joinPath base (if directory = "" then "." else directory))
  if ¬ strStartsWith target base then
    .error "Requested directory is outside the working directory."
  else if ¬ fs.dirs target then .error "Directory not found."
  else
    .files ((fs.entries target).filterMap (fun name =>
      let p := joinPath target name
      match fs.files p with
      | some content => some (relpath cwd p base, content.utf8ByteSize)
      | none => none))

/-! ## Derived forms and concrete fixtures used by the theorems -/

/-- The function-response payload `call_function` attaches, expressed
directly: an unknown name yields the error dict, a `TypeError` during
binding yields an execution-error result, otherwise the result
string. -/
def callPayload (w : World) (fc : FunctionCall) : FnResponse :=
  match dispatch.lookup fc.name with
  | none => .error ("Unknown function: " ++ fc.name)
  | some impl =>
    match impl w (setArg fc.args "working_directory" "./calculator") with
    | .error e => .result ("Error during execution: " ++ e)
    | .ok (res, _, _) => .result res

/-- The sequence of turns the execution phase appends, one per call in the
order received. -/
def execTurns (w : World) : List FunctionCall → List types.Content
  | [] => []
  | c :: rest =>
    mkToolResultTurn (callPayload w c) :: execTurns (call_function w c).2.1 rest

/-- The world after executing calls left to right. -/
def execWorld (w : World) : List FunctionCall → World
  | [] => w
  | c :: rest => execWorld (call_function w c).2.1 rest

/-- The event trace of the execution phase: for each call, its invocation
notice and spawn events, then the append of its result turn, before the
events of the next call. -/
def execTrace (w : World) : List FunctionCall → List Event
  | [] => []
  | c :: rest =>
    (call_function w c).2.2 ++ [Event.append (mkToolResultTurn (callPayload w c))] ++
      execTrace (call_function w c).2.1 rest

/-- A small consistent filesystem: working root `/w/calculator` under
cwd `/w`, no files. -/
def fs0 : FS :=
  ⟨fun _ => none, fun p => p == "/w" || p == "/w/calculator", fun _ => []⟩

/-- A concrete world for witnesses. -/
def w0 : World := ⟨"/w", "python3", fs0, fun _ _ => .finished 0 "" ""⟩

/-- A response requesting one unknown tool. -/
def respC3 : Response :=
  ⟨some "planning", [⟨"frobnicate", [("x", "1")]⟩], []⟩

/-- A backend that always requests the unknown tool. -/
def backendC3 : Backend := fun _ => .ok respC3

/-- A backend that always answers with an empty response (no text, no calls,
no candidates), which never satisfies the termination test. -/
def backendC5 : Backend := fun _ => .ok ⟨none, [], []⟩

/-- An initial loop state over `w0`. -/
def stC3 : LoopSt :=
  ⟨[types.Content.mk "user" [types.Part.mk (some "hi") none]], w0, []⟩

/-- Filesystem for the sibling-directory example: base `/w/root`, sibling
`/w/root2` holding the 5-byte file `a.txt`. -/
def gfiFs : FS :=
  ⟨fun p => if p == "/w/root2/a.txt" then some "hello" else none,
    fun p => p == "/w" || p == "/w/root" || p == "/w/root2",
    fun p => if p == "/w/root2" then ["a.txt"] else []⟩

/-! ## Helper lemmas -/

/-- Re-assigning a key overrides any earlier assignment of the same key. -/
theorem setArg_override (m : List (String × String)) (k v c : String) :
    setArg (setArg m k v) k c = setArg m k c := by
  induction m with
  | nil => simp [setArg]
  | cons kv rest ih =>
    by_cases h : kv.1 = k <;> simp [setArg, h, ih]

/-- `call_function` always returns a tool-role content whose single part
carries `callPayload` as its function response. -/
theorem call_function_fst (w : World) (fc : FunctionCall) :
    (call_function w fc).1 =
      types.Content.mk "tool" [partFromFnResponse (callPayload w fc)] := by
  unfold call_function callPayload
  cases dispatch.lookup fc.name with
  | none => rfl
  | some impl =>
    cases h : impl w (setArg fc.args "working_directory" "./calculator") with
    | error e => simp [h]
    | ok out => simp [h]

/-- Extraction of the function-response payload never fails, so the
`RuntimeError` branch of the loop is unreachable. -/
theorem extract_call (w : World) (fc : FunctionCall) :
    extractResp (call_function w fc).1 = some (callPayload w fc) := by
  rw [call_function_fst]; rfl

/-- The execution phase, resolved: calls are processed in order, each result
turn appended (to the transcript and to the trace) before the events of the
next call. -/
theorem processCalls_eq (calls : List FunctionCall) (w : World)
    (msgs : List types.Content) (tr : List Event) :
    processCalls w msgs tr calls =
      some (msgs ++ execTurns w calls, execWorld w calls, tr ++ execTrace w calls) := by
  induction calls generalizing w msgs tr with
  | nil => simp [processCalls, execTurns, execWorld, execTrace]
  | cons c rest ih =>
    simp only [processCalls, extract_call, execTurns, execWorld, execTrace, ih,
      List.append_assoc, List.cons_append, List.nil_append]

/-- Every result turn has role "user". -/
theorem execTurns_role (w : World) (calls : List FunctionCall) :
    (execTurns w calls).all (fun t => t.role == "user") = true := by
  induction calls generalizing w with
  | nil => rfl
  | cons c rest ih => simp [execTurns, mkToolResultTurn, ih]

/-- A successful, non-final model response makes the pass continue. -/
theorem loopStep_cont (backend : Backend) (st : LoopSt) (r : Response)
    (hb : backend st.messages = Except.ok r) (hF : finalCheck r = false) :
    loopStep backend st =
      StepRes.cont
        ⟨st.messages ++ r.candidates.filterMap id ++ execTurns st.world r.function_calls,
          execWorld st.world r.function_calls,
          st.trace ++ execTrace st.world r.function_calls⟩ := by
  simp [loopStep, hb, processCalls_eq, hF]

/-- A backend that always succeeds and never satisfies the termination test
drives the loop through every one of its `n` allowed passes. -/
theorem runLoop_exhausts (backend : Backend)
    (hok : ∀ msgs, ∃ r, backend msgs = Except.ok r)
    (hnf : ∀ msgs r, backend msgs = Except.ok r → finalCheck r = false) :
    ∀ (n : Nat) (st : LoopSt),
      (runLoop backend n st).1 = RunOutcome.exhausted ∧ (runLoop backend n st).2.2 = n := by
  intro n
  induction n with
  | zero => intro st; exact ⟨rfl, rfl⟩
  | succ n ih =>
    intro st
    obtain ⟨r, hr⟩ := hok st.messages
    have hstep := loopStep_cont backend st r hr (hnf _ _ hr)
    simp only [runLoop, hstep]
    exact ⟨(ih _).1, by simp [(ih _).2]⟩

/-- `mkdirChain` never touches regular files. -/
theorem mkdirChain_files (ds : List String) :
    ∀ fs fs2 : FS, mkdirChain fs ds = Except.ok fs2 → fs2.files = fs.files := by
  induction ds with
  | nil => intro fs fs2 h; simp [mkdirChain] at h; rw [h]
  | cons d rest ih =>
    intro fs fs2 h
    by_cases hd : fs.dirs d = true
    · simp [mkdirChain, hd] at h; exact ih _ _ h
    · by_cases hf : fsIsFile fs d = true
      · simp [mkdirChain, hd, hf] at h
      · simp [mkdirChain, hd, hf] at h
        have h2 := ih _ _ h
        exact h2

/-- `mkdirChain` only ever adds directories. -/
theorem mkdirChain_dirs_mono (ds : List String) :
    ∀ fs fs2 : FS, mkdirChain fs ds = Except.ok fs2 →
      ∀ p : String, fs.dirs p = true → fs2.dirs p = true := by
  induction ds with
  | nil => intro fs fs2 h p hp; simp [mkdirChain] at h; rw [h] at hp; exact hp
  | cons d rest ih =>
    intro fs fs2 h p hp
    by_cases hd : fs.dirs d = true
    · simp [mkdirChain, hd] at h; exact ih _ _ h p hp
    · by_cases hf : fsIsFile fs d = true
      · simp [mkdirChain, hd, hf] at h
      · simp [mkdirChain, hd, hf] at h
        exact ih _ _ h p (by simp [hp])

/-- After a successful `mkdirChain`, every listed component is a directory. -/
theorem mkdirChain_mem_dirs (ds : List String) :
    ∀ fs fs2 : FS, mkdirChain fs ds = Except.ok fs2 →
      ∀ d ∈ ds, fs2.dirs d = true := by
  induction ds with
  | nil => intro fs fs2 h d hd; cases hd
  | cons d0 rest ih =>
    intro fs fs2 h d hd
    by_cases hdir : fs.dirs d0 = true
    · simp only [mkdirChain, if_pos hdir] at h
      rcases List.mem_cons.mp hd with h0 | h0
      · subst h0; exact mkdirChain_dirs_mono rest fs fs2 h d hdir
      · exact ih _ _ h d h0
    · by_cases hf : fsIsFile fs d0 = true
      · simp [mkdirChain, hdir, hf] at h
      · simp [mkdirChain, hdir, hf] at h
        rcases List.mem_cons.mp hd with h0 | h0
        · subst h0
          exact mkdirChain_dirs_mono rest _ fs2 h d (by simp)
        · exact ih _ _ h d h0

/-- A path outside the processed chain keeps its directory status. -/
theorem mkdirChain_dirs_outside (ds : List String) :
    ∀ fs fs2 : FS, mkdirChain fs ds = Except.ok fs2 →
      ∀ p : String, p ∉ ds → fs2.dirs p = fs.dirs p := by
  induction ds with
  | nil => intro fs fs2 h p _; simp [mkdirChain] at h; rw [h]
  | cons d rest ih =>
    intro fs fs2 h p hp
    have hpd : p ≠ d := fun he => hp (he ▸ List.mem_cons_self _ _)
    have hprest : p ∉ rest := fun he => hp (List.mem_cons_of_mem _ he)
    by_cases hd : fs.dirs d = true
    · simp [mkdirChain, hd] at h; exact ih _ _ h p hprest
    · by_cases hf : fsIsFile fs d = true
      · simp [mkdirChain, hd, hf] at h
      · simp [mkdirChain, hd, hf] at h
        rw [ih _ _ h p hprest]
        simp [hpd]

/-- Dropping a prefix by predicate never lengthens a list. -/
theorem length_dropWhile_le' {α : Type} (p : α → Bool) (l : List α) :
    (l.dropWhile p).length ≤ l.length := by
  induction l with
  | nil => simp [List.dropWhile]
  | cons a rest ih =>
    by_cases h : p a = true
    · simp only [List.dropWhile, h]
      exact le_trans ih (Nat.le_succ _)
    · simp [List.dropWhile, h]

/-- `posixpath.dirname` never lengthens a path. -/
theorem dirnameStr_length_le (p : String) : (dirnameStr p).length ≤ p.length := by
  unfold dirnameStr
  cases h : lastSlashPos p.data with
  | none => exact Nat.zero_le _
  | some i =>
    dsimp only
    have htake : (p.data.take (i + 1)).length ≤ p.data.length := by
      rw [List.length_take]; exact Nat.min_le_right _ _
    split
    · exact htake
    · refine le_trans ?_ htake
      show (rstripSlashes (p.data.take (i + 1))).length ≤ (p.data.take (i + 1)).length
      calc (rstripSlashes (p.data.take (i + 1))).length
          = ((p.data.take (i + 1)).reverse.dropWhile (· = '/')).length := by
            simp [rstripSlashes]
        _ ≤ (p.data.take (i + 1)).reverse.length := length_dropWhile_le' _ _
        _ = (p.data.take (i + 1)).length := List.length_reverse _

/-- Every member of the ancestor chain of `d` is no longer than `d`. -/
theorem ancestorList_length_le (n : Nat) (d q : String)
    (hq : q ∈ ancestorList n d) : q.length ≤ d.length := by
  induction n generalizing d with
  | zero => cases hq
  | succ n ih =>
    unfold ancestorList at hq
    split at hq
    · cases hq
    · rcases List.mem_append.mp hq with h0 | h0
      · exact le_trans (ih _ h0) (dirnameStr_length_le d)
      · simp at h0; rw [h0]

/-! ## Claim theorems -/

/-- C1: for every working root and relative path, `_safe_resolve` succeeds
exactly when the normalized absolute join of root and path equals the root
or extends it past a path separator, and then returns that normalized path;
otherwise it fails with the path-escape error. The function is a pure map on
strings (its signature takes no filesystem), so success never depends on
what exists on disk and resolution has no side effects; the second conjunct
checks the traversal example concretely. -/
theorem sandbox_resolve_matches_confinement_spec :
    (∀ cwd p root : String,
        _safe_resolve cwd p root =
          (let root_abs := abspath cwd root
           let target := abspath cwd (joinPath root_abs p)
           if staysInsideRoot root_abs target then Except.ok target
           else Except.error "Path escapes working directory"))
    ∧ _safe_resolve "/home/user" "../../etc/passwd" "project" =
        Except.error "Path escapes working directory" := by
  constructor
  · intro cwd p root
    simp only [_safe_resolve, staysInsideRoot, Bool.or_eq_true, beq_iff_eq]
  · decide

/-- C2: `call_function` forces `working_directory` to the fixed root, so two
requests that differ only in a caller-supplied `working_directory` value
produce identical results (identical tool behaviour, world, and events); and
no advertised declaration lists `working_directory` among its parameters. -/
theorem working_directory_forced_and_not_advertised :
    (∀ (w : World) (name : String) (args : List (String × String)) (v : String),
        call_function w ⟨name, setArg args "working_directory" v⟩ =
          call_function w ⟨name, args⟩)
    ∧ (available_functions.function_declarations.all
        (fun d => !((d.parameters.properties.map Prod.fst).contains "working_directory"))) =
        true := by
  constructor
  · intro w name args v
    simp only [call_function, setArg_override]
  · decide

/-- C9: when the sandbox resolution of `file_path` succeeds but the target
is not an existing regular file, `_run_python_file` returns the
file-not-found error and its event trace is empty: `subprocess.run` is never
reached. -/
theorem run_file_missing_target_no_spawn (w : World)
    (file_path args working_directory t : String)
    (hres : _safe_resolve w.cwd file_path working_directory = Except.ok t)
    (hmiss : w.fs.files t = none) :
    _run_python_file w file_path args working_directory =
      ("Error: file not found: " ++ file_path, ([] : List Event)) := by
  simp [_run_python_file, hres, fsIsFile, fsExists, hmiss]

/-- C9 witness: a concrete missing file. -/
theorem run_file_missing_target_no_spawn_witness :
    _run_python_file w0 "ghost.py" "" "./calculator" =
      ("Error: file not found: " ++ "ghost.py", ([] : List Event)) :=
  run_file_missing_target_no_spawn w0 "ghost.py" "" "./calculator"
    "/w/calculator/ghost.py" (by decide) rfl

/-- C10: the standalone `get_files_info` confines only by a plain string
prefix test, so the sibling directory `/w/root2` of base `/w/root` passes
the check and is listed, although it is outside the root in the
separator-boundary sense. -/
theorem gfi_prefix_check_admits_sibling_directory :
    get_files_info "/w/root" gfiFs "../root2" =
      GfiOutcome.files [("../root2/a.txt", 5)]
    ∧ staysInsideRoot "/w/root" (abspath "/w/root" (joinPath "/w/root" "../root2")) =
        false := by
  constructor
  · decide
  · decide

/-- C3: an unknown tool name makes `call_function` return the
`{"error": "Unknown function: ..."}` payload instead of raising, and a pass
whose response requests that call continues to the next model request: the
step result is `cont` (not crashed, not aborted), with the error turn
appended to the transcript and the world untouched. -/
theorem unknown_tool_err_turn_and_loop_continues
    (name : String) (args : List (String × String)) (backend : Backend)
    (st : LoopSt) (r : Response)
    (hname : dispatch.lookup name = none)
    (hb : backend st.messages = Except.ok r)
    (hcalls : r.function_calls = [⟨name, args⟩]) :
    extractResp (call_function st.world ⟨name, args⟩).1 =
      some (FnResponse.error ("Unknown function: " ++ name))
    ∧ ∃ st2, loopStep backend st = StepRes.cont st2
        ∧ st2.messages = st.messages ++ r.candidates.filterMap id ++
            [mkToolResultTurn (FnResponse.error ("Unknown function: " ++ name))]
        ∧ st2.world = st.world := by
  have hpay : callPayload st.world ⟨name, args⟩ =
      FnResponse.error ("Unknown function: " ++ name) := by
    simp [callPayload, hname]
  have hF : finalCheck r = false := by
    simp [finalCheck, hcalls]
  refine ⟨?_, ?_⟩
  · rw [extract_call, hpay]
  · refine ⟨_, loopStep_cont backend st r hb hF, ?_, ?_⟩
    · simp [hcalls, execTurns, hpay, call_function, hname, List.append_assoc]
    · simp [hcalls, execWorld, call_function, hname]

/-- C3 witness. -/
theorem unknown_tool_err_turn_and_loop_continues_witness :
    extractResp (call_function stC3.world ⟨"frobnicate", [("x", "1")]⟩).1 =
      some (FnResponse.error ("Unknown function: " ++ "frobnicate"))
    ∧ ∃ st2, loopStep backendC3 stC3 = StepRes.cont st2
        ∧ st2.messages = stC3.messages ++ respC3.candidates.filterMap id ++
            [mkToolResultTurn (FnResponse.error ("Unknown function: " ++ "frobnicate"))]
        ∧ st2.world = stC3.world :=
  unknown_tool_err_turn_and_loop_continues "frobnicate" [("x", "1")]
    backendC3 stC3 respC3 rfl rfl rfl

/-- C4: a loop pass emits final text and stops exactly when the model
response succeeded and carried (truthy) final text with no tool calls and no
candidates; in particular a pass whose response requested a tool call or
delivered a candidate never finalizes. -/
theorem finalize_iff_text_without_calls_or_candidates
    (backend : Backend) (st : LoopSt) (t : String) :
    (∃ st2, loopStep backend st = StepRes.finalText t st2) ↔
      (∃ r, backend st.messages = Except.ok r ∧ r.text = some t ∧ t ≠ "" ∧
        r.function_calls = [] ∧ r.candidates = []) := by
  constructor
  · rintro ⟨st2, h⟩
    cases hb : backend st.messages with
    | error e => rw [loopStep, hb] at h; cases h
    | ok r =>
      rw [loopStep, hb] at h
      simp only [processCalls_eq] at h
      by_cases hF : finalCheck r = true
      · rw [if_pos hF] at h
        have h1 := hF
        simp only [finalCheck, Bool.and_eq_true, List.isEmpty_iff] at h1
        obtain ⟨⟨htxt, hcalls⟩, hcands⟩ := h1
        cases htext : r.text with
        | none => rw [htext] at htxt; cases htxt
        | some s =>
          rw [htext] at htxt
          simp only [truthyText, Bool.not_eq_true', beq_eq_false_iff_ne] at htxt
          cases h
          refine ⟨r, rfl, ?_, ?_, hcalls, hcands⟩
          · rw [htext]; simp
          · simpa [htext] using htxt
      · rw [if_neg (by simpa using hF)] at h
        cases h
  · rintro ⟨r, hb, htext, hne, hcalls, hcands⟩
    have hF : finalCheck r = true := by
      simp [finalCheck, htext, hcalls, hcands, truthyText, hne]
    have hstep : loopStep backend st = StepRes.finalText t
        ⟨st.messages ++ r.candidates.filterMap id ++ execTurns st.world r.function_calls,
          execWorld st.world r.function_calls,
          st.trace ++ execTrace st.world r.function_calls⟩ := by
      rw [loopStep, hb]
      simp only [processCalls_eq, hF, if_true, htext, Option.getD_some]
    exact ⟨_, hstep⟩

/-- C5: if every model request succeeds and no response ever satisfies the
termination test (truthy final text with no tool calls and no candidates),
the loop makes exactly `max_iters` (= 20) passes and ends in the
exhausted outcome, which `main` reports as "No final textual response after
max iterations." — a controlled stop, not a hang or crash. -/
theorem never_final_runs_exhaust_after_max_iters
    (backend : Backend) (w : World) (prompt : String)
    (hok : ∀ msgs, ∃ r, backend msgs = Except.ok r)
    (hnf : ∀ msgs r, backend msgs = Except.ok r → finalCheck r = false) :
    (runAgent backend w prompt).1 = RunOutcome.exhausted
    ∧ (runAgent backend w prompt).2.2 = max_iters ∧ max_iters = 20 := by
  have h := runLoop_exhausts backend hok hnf max_iters
    ⟨[types.Content.mk "user" [types.Part.mk (some prompt) none]], w, []⟩
  exact ⟨h.1, h.2, rfl⟩

/-- C5 witness: a backend whose responses are always empty (no text, no
calls, no candidates) never finalizes, and the run exhausts in 20 passes. -/
theorem never_final_runs_exhaust_after_max_iters_witness :
    (runAgent backendC5 w0 "hi").1 = RunOutcome.exhausted
    ∧ (runAgent backendC5 w0 "hi").2.2 = max_iters ∧ max_iters = 20 :=
  never_final_runs_exhaust_after_max_iters backendC5 w0 "hi"
    (fun _ => ⟨⟨none, [], []⟩, rfl⟩)
    (fun _ r h => by injection h with h2; rw [← h2]; rfl)

/-- C6 counterexample: the turn the loop appends for a tool result carries
role "user", not role "tool" — the tool-role content of `call_function` is
discarded and only its payload is re-wrapped into a user-role content. -/
theorem tool_result_turn_has_user_role_counterexample :
    ((processCalls w0 [] [] [⟨"get_file_content", [("file_path", "nope.txt")]⟩]).map
        (fun out => out.1.map types.Content.role)) = some ["user"]
    ∧ ("user" : String) ≠ "tool" := by
  constructor
  · decide
  · decide

/-- C6 amended: the execution phase handles the calls of one response
strictly in the order received, appending the result turn of each call to the
transcript (and recording the append in the trace) before the invocation
events of the next call, but the appended turns carry role "user" rather than the
claimed role "tool". -/
theorem calls_executed_in_order_results_appended_as_user_turns
    (calls : List FunctionCall) (w : World) (msgs : List types.Content)
    (tr : List Event) :
    processCalls w msgs tr calls =
      some (msgs ++ execTurns w calls, execWorld w calls, tr ++ execTrace w calls)
    ∧ (execTurns w calls).all (fun t => t.role == "user") = true :=
  ⟨processCalls_eq calls w msgs tr, execTurns_role w calls⟩

/-- Python `content or ""` is the identity on actual strings. -/
theorem py_str_or_empty_eq (s : String) : py_str_or_empty s = s := by
  unfold py_str_or_empty
  split <;> simp_all

/-- C7 counterexample: `"."` is an in-sandbox relative path (it resolves to
the working root itself), yet `write_file` fails on it — the root is an
existing directory — and the subsequent `read_file` does not return the
written content, so the unrestricted round-trip law is false. -/
theorem write_read_roundtrip_counterexample :
    (_write_file w0 "." "hello" "./calculator").1 =
      "Error writing file: IsADirectoryError"
    ∧ _get_file_content (_write_file w0 "." "hello" "./calculator").2 "."
        "./calculator" = "Error: file not found: ."
    ∧ ("Error: file not found: ." : String) ≠ "hello" := by
  refine ⟨?_, ?_, ?_⟩ <;> decide

/-- C7 amended: for every in-sandbox relative path whose resolved target is
a proper extension of its parent directory, is not an existing directory
(nor created as one), and whose parent chain can be created (`makedirs`
succeeds, i.e. no ancestor is a regular file), `write_file` reports the
byte count, a following `read_file` of the same path returns exactly the
written content, and every missing parent directory has been created. -/
theorem write_then_read_roundtrip (w : World) (p c wd t : String)
    (hres : _safe_resolve w.cwd p wd = Except.ok t)
    (hlen : (dirnameStr t).length < t.length)
    (hnotdir : w.fs.dirs t = false)
    (hmk : ∃ fs1, makedirs w.fs (dirnameStr t) = Except.ok fs1) :
    (_write_file w p c wd).1 = "Wrote " ++ toString c.length ++ " bytes to " ++ p
    ∧ _get_file_content (_write_file w p c wd).2 p wd = c
    ∧ ∀ d ∈ ancestorList (dirnameStr t).length (dirnameStr t),
        ((_write_file w p c wd).2).fs.dirs d = true := by
  obtain ⟨fs1, hmk1⟩ := hmk
  have hmk2 : mkdirChain w.fs (ancestorList (dirnameStr t).length (dirnameStr t)) =
      Except.ok fs1 := hmk1
  have hnotin : t ∉ ancestorList (dirnameStr t).length (dirnameStr t) := fun hm =>
    absurd (ancestorList_length_le _ _ _ hm) (Nat.not_le.mpr hlen)
  have hfs1t : fs1.dirs t = false := by
    rw [mkdirChain_dirs_outside _ _ _ hmk2 t hnotin]; exact hnotdir
  have hw : _write_file w p c wd =
      ("Wrote " ++ toString c.length ++ " bytes to " ++ p,
        { w with fs :=
            { fs1 with files := fun q => if q == t then some c else fs1.files q } }) := by
    simp [_write_file, hres, hmk1, hfs1t, py_str_or_empty_eq]
  refine ⟨by rw [hw], ?_, ?_⟩
  · rw [hw]
    simp [_get_file_content, hres, fsExists, fsIsFile]
  · intro d hd
    rw [hw]
    exact mkdirChain_mem_dirs _ _ _ hmk2 d hd

/-- C7 witness: the example of the specification, `write_file("out/x.txt", "hello")`
then `read_file("out/x.txt")`, in a world where `out` does not yet exist. -/
theorem write_then_read_roundtrip_witness :
    (_write_file w0 "out/x.txt" "hello" "./calculator").1 =
      "Wrote " ++ toString ("hello" : String).length ++ " bytes to " ++ "out/x.txt"
    ∧ _get_file_content (_write_file w0 "out/x.txt" "hello" "./calculator").2
        "out/x.txt" "./calculator" = "hello"
    ∧ ∀ d ∈ ancestorList (dirnameStr "/w/calculator/out/x.txt").length
          (dirnameStr "/w/calculator/out/x.txt"),
        ((_write_file w0 "out/x.txt" "hello" "./calculator").2).fs.dirs d = true :=
  write_then_read_roundtrip w0 "out/x.txt" "hello" "./calculator"
    "/w/calculator/out/x.txt" (by decide) (by decide) (by decide) ⟨_, rfl⟩

/-- C8 counterexample: a `write_file` call without `content` does not create
the file with empty content — binding raises `TypeError`, which the executor
converts into an execution-error result, and the filesystem is untouched. -/
theorem write_file_omitted_content_counterexample :
    extractResp (call_function w0 ⟨"write_file", [("file_path", "x.txt")]⟩).1 =
      some (FnResponse.result
        ("Error during execution: _write_file() missing 1 required positional argument: \x27content\x27"))
    ∧ ((call_function w0 ⟨"write_file", [("file_path", "x.txt")]⟩).2.1).fs.files
        "/w/calculator/x.txt" = none := by
  constructor
  · decide
  · decide

/-- C8 amended: whenever the argument map of a `write_file` call contains
`file_path` but no `content` (and no unexpected keys), `call_function`
returns the missing-argument execution error, leaves the world unchanged,
and creates or overwrites nothing. -/
theorem write_file_omitted_content_is_execution_error (w : World)
    (args : List (String × String)) (fp : String)
    (hkeys : findUnexpected ["file_path", "content", "working_directory"]
        (setArg args "working_directory" "./calculator") = none)
    (hfp : (setArg args "working_directory" "./calculator").lookup "file_path" = some fp)
    (hc : (setArg args "working_directory" "./calculator").lookup "content" = none) :
    call_function w ⟨"write_file", args⟩ =
      (types.Content.mk "tool"
          [partFromFnResponse (FnResponse.result
            ("Error during execution: " ++ missingOneMsg "_write_file" "content"))],
        w, [Event.invoke "write_file"]) := by
  have hd : dispatch.lookup "write_file" = some bind_write_file := by rfl
  simp [call_function, hd, bind_write_file, hkeys, hfp, hc]

/-- C8 amended witness. -/
theorem write_file_omitted_content_is_execution_error_witness :
    call_function w0 ⟨"write_file", [("file_path", "x.txt")]⟩ =
      (types.Content.mk "tool"
          [partFromFnResponse (FnResponse.result
            ("Error during execution: " ++ missingOneMsg "_write_file" "content"))],
        w0, [Event.invoke "write_file"]) :=
  write_file_omitted_content_is_execution_error w0 [("file_path", "x.txt")]
    "x.txt" (by decide) (by decide) (by decide)
